import Mathlib

/-
Shallow embedding of the ecommerce backend (src/app.py): four Mongo
collections (users, products, orders, carts) modelled as lists of
documents, each Flask handler modelled as a pure function from its parsed
request body and the database state to a response, the new state, and (for
the stock handler) the list of realtime broadcast events emitted.
-/

namespace ECommerce

/-- Mongo `update_one(filter, {$set: ...})`: applies `f` to the first
element satisfying `p`; the boolean is `matched_count > 0`. -/
def updateFirst (p : α → Bool) (f : α → α) : List α → List α × Bool
  | [] => ([], false)
  | x :: xs =>
    if p x then (f x :: xs, true)
    else
      let r := updateFirst p f xs
      (x :: r.1, r.2)

/-- Mongo `delete_one(filter)`: removes the first element satisfying `p`;
the boolean is `deleted_count > 0`. -/
def deleteFirst (p : α → Bool) : List α → List α × Bool
  | [] => ([], false)
  | x :: xs =>
    if p x then (xs, true)
    else
      let r := deleteFirst p xs
      (x :: r.1, r.2)

/-- Lower-case hex digit for a value below 16. -/
def hexChar (n : Nat) : Char :=
  if n < 10 then Char.ofNat (48 + n) else Char.ofNat (87 + n)

/-- Hex-encodes a character list, two hex digits per character. -/
def hexEncode : List Char → List Char
  | [] => []
  | c :: cs => hexChar (c.toNat / 16 % 16) :: hexChar (c.toNat % 16) :: hexEncode cs

/-- Model of the digest part of werkzeug's password hashing (external
library, not part of src/): a deterministic digest of salt and password.
The exact bytes are irrelevant to the spec; what matters is that the
output is determined by salt and password and is hex text. -/
def pbkdf2Digest (salt password : String) : String :=
  String.mk (hexEncode (salt ++ "|" ++ password).data)

/-- Model of werkzeug's `generate_password_hash` (external library): the
stored string is `method$salt$digest`, never the plaintext. The salt,
chosen randomly by the library, is passed in as an explicit parameter. -/
def generate_password_hash (salt password : String) : String :=
  "pbkdf2:sha256:600000$" ++ salt ++ "$" ++ pbkdf2Digest salt password

/-- Splits a character list on the dollar separator, used by the stored
hash format `method$salt$digest`. -/
def splitOnDollar : List Char → List (List Char)
  | [] => [[]]
  | c :: cs =>
    if c = '$' then [] :: splitOnDollar cs
    else
      match splitOnDollar cs with
      | [] => [[c]]
      | r :: rs => (c :: r) :: rs

/-- Model of werkzeug's `check_password_hash` (external library): splits
the stored hash into method, salt and digest, and recomputes the digest of
the candidate password under the stored salt. -/
def check_password_hash (pwhash password : String) : Bool :=
  match splitOnDollar pwhash.data with
  | [method, salt, dig] =>
    method == "pbkdf2:sha256:600000".data
      && dig == (pbkdf2Digest (String.mk salt) password).data
  | _ => false

/-- Hex digit test, as accepted by `bson.objectid.ObjectId`. -/
def isHexDigit (c : Char) : Bool :=
  c.isDigit || (97 ≤ c.toNat && c.toNat ≤ 102) || (65 ≤ c.toNat && c.toNat ≤ 70)

/-- `ObjectId(s)` succeeds exactly on 24-character hex strings. -/
def isValidObjectId (s : String) : Bool :=
  s.length == 24 && s.data.all isHexDigit

/-- Numeric value of a hex digit. -/
def hexVal (c : Char) : Nat :=
  if c.toNat ≤ 57 then c.toNat - 48
  else if c.toNat ≤ 70 then c.toNat - 55
  else c.toNat - 87

/-- Model of `bson.objectid.ObjectId(s)`: `some` of the 96-bit value on a
well-formed id, `none` when the constructor raises `InvalidId`. -/
def parseObjectId (s : String) : Option Nat :=
  if isValidObjectId s then some (s.data.foldl (fun a c => a * 16 + hexVal c) 0) else none

/-- A document of the `users` collection. `uid` is the store-generated
`_id`. -/
structure User where
  uid : Nat
  name : String
  email : String
  password : String
  deriving DecidableEq, Repr

/-- A document of the `products` collection. `image` is `none` when the
document has no `image` field. -/
structure Product where
  id : Int
  name : String
  price : Int
  stock : Int
  image : Option String
  deriving DecidableEq, Repr

/-- A line item of an order (or cart). `image` is overwritten by order
enrichment; requests may send it with any value. -/
structure OrderItem where
  id : Int
  quantity : Int
  price : Int
  image : String
  deriving DecidableEq, Repr

/-- A document of the `orders` collection. `oid` is the store-generated
`_id`. -/
structure Order where
  oid : Nat
  user_email : String
  items : List OrderItem
  city : String
  pincode : Int
  total_price : Int
  status : String
  order_date : String
  cancellationRequested : Bool
  deriving DecidableEq, Repr

/-- A document of the `carts` collection. -/
structure Cart where
  user_email : String
  items : List OrderItem
  deriving DecidableEq, Repr

/-- The database: the four collections plus the store's id generator for
inserted documents. -/
structure DB where
  users : List User
  products : List Product
  orders : List Order
  carts : List Cart
  nextId : Nat
  deriving DecidableEq, Repr

/-- A user document as returned by the admin listing (password projected
away, `_id` surfaced). -/
structure UserOut where
  uid : Nat
  name : String
  email : String
  deriving DecidableEq, Repr

/-- JSON response bodies produced by the handlers. -/
inductive Body where
  | errMsg (s : String)
  | okMsg (s : String)
  | loginOk (message name : String)
  | productList (ps : List Product)
  | orderList (os : List Order)
  | itemList (is : List OrderItem)
  | userList (us : List UserOut)
  deriving DecidableEq, Repr

/-- Outcome of a handler: a normal `(status, body)` response, or a Python
exception escaping the handler uncaught. -/
inductive HRes where
  | ok (status : Nat) (body : Body)
  | exn (name : String)
  deriving DecidableEq, Repr

/-- Payload of a `stock_update` broadcast, with the field names emitted by
the code. -/
structure StockEvent where
  product_id : Int
  stock : Int
  deriving DecidableEq, Repr

/-- Python truthiness of `data.get(k)` for a string field: falsy when
absent or the empty string. -/
def falsyS : Option String → Bool
  | none => true
  | some s => s.isEmpty

/-- Python truthiness for an integer field: falsy when absent or zero. -/
def falsyI : Option Int → Bool
  | none => true
  | some n => n == 0

/-- Python truthiness for a list field: falsy when absent or empty. -/
def falsyL : Option (List α) → Bool
  | none => true
  | some l => l.isEmpty

/-- `POST /api/register` (app.py `register`): presence check on the three
fields, conflict check on the email, then insert with hashed password.
The library's random salt is an explicit parameter. -/
def register (name email password : Option String) (salt : String) (db : DB) :
    HRes × DB :=
  if falsyS name || falsyS email || falsyS password then
    (.ok 400 (.errMsg "Missing required fields"), db)
  else
    let e := email.getD ""
    if (db.users.find? (fun u => u.email == e)).isSome then
      (.ok 400 (.errMsg "Email already registered"), db)
    else
      let hashed := generate_password_hash salt (password.getD "")
      let user : User :=
        { uid := db.nextId, name := name.getD "", email := e, password := hashed }
      (.ok 201 (.okMsg "User registered successfully"),
        { db with users := db.users ++ [user], nextId := db.nextId + 1 })

/-- `POST /api/login` (app.py `login`): presence check, then lookup by
email; one undifferentiated 401 for a missing user or a hash mismatch. -/
def login (email password : Option String) (db : DB) : HRes × DB :=
  if falsyS email || falsyS password then
    (.ok 400 (.errMsg "Missing email or password"), db)
  else
    match db.users.find? (fun u => u.email == email.getD "") with
    | none => (.ok 401 (.errMsg "Invalid email or password"), db)
    | some user =>
      if check_password_hash user.password (password.getD "") then
        (.ok 200 (.loginOk "Login successful" user.name), db)
      else
        (.ok 401 (.errMsg "Invalid email or password"), db)

/-- `GET /api/products` (app.py `get_products`): all products (the model
carries no `_id` on products, so the projection stripping `_id` is the
identity here). -/
def get_products (db : DB) : HRes × DB :=
  (.ok 200 (.productList db.products), db)

/-- `POST /api/products/(id)/stock` (app.py `update_stock`): `is None`
check on the stock value, `update_one` on the product, 404 when nothing
matched, else one `stock_update` broadcast. The third component is the
list of emitted broadcast events. -/
def update_stock (product_id : Int) (stock : Option Int) (db : DB) :
    HRes × DB × List StockEvent :=
  match stock with
  | none => (.ok 400 (.errMsg "Missing stock value"), db, [])
  | some new_stock =>
    let r := updateFirst (fun p => p.id == product_id)
      (fun p => { p with stock := new_stock }) db.products
    if r.2 then
      (.ok 200 (.okMsg "Stock updated"), { db with products := r.1 },
        [{ product_id := product_id, stock := new_stock }])
    else
      (.ok 404 (.errMsg "Product not found"), db, [])

/-- Item enrichment loop of app.py `create_order`: looks up the product by
the item's id and copies its image, defaulting to the empty string when
the product or its image field is missing. -/
def enrichItem (products : List Product) (item : OrderItem) : OrderItem :=
  match products.find? (fun p => p.id == item.id) with
  | some product =>
    match product.image with
    | some img => { item with image := img }
    | none => { item with image := "" }
  | none => { item with image := "" }

/-- `POST /api/orders` (app.py `create_order`): truthiness checks on
user_email, items, city and pincode, an `is None` check on total_price,
image enrichment, then insert with status "Pending", the current UTC
timestamp (`now`, the value of `datetime.utcnow().isoformat()`), and
`cancellationRequested = False`. -/
def create_order (user_email : Option String) (items : Option (List OrderItem))
    (city : Option String) (pincode : Option Int) (total_price : Option Int)
    (now : String) (db : DB) : HRes × DB :=
  if falsyS user_email || falsyL items || falsyS city || falsyI pincode
      || total_price.isNone then
    (.ok 400 (.errMsg "Missing required order fields"), db)
  else
    let enriched := (items.getD []).map (enrichItem db.products)
    let order : Order :=
      { oid := db.nextId
        user_email := user_email.getD ""
        items := enriched
        city := city.getD ""
        pincode := pincode.getD 0
        total_price := total_price.getD 0
        status := "Pending"
        order_date := now
        cancellationRequested := false }
    (.ok 201 (.okMsg "Order placed successfully"),
      { db with orders := db.orders ++ [order], nextId := db.nextId + 1 })

/-- `GET /api/orders/(email)` (app.py `get_orders`): the orders whose
user_email matches the path segment. -/
def get_orders (user_email : String) (db : DB) : HRes × DB :=
  (.ok 200 (.orderList (db.orders.filter (fun o => o.user_email == user_email))), db)

/-- `POST /api/orders/(id)/request-cancellation` (app.py
`request_cancellation`): `ObjectId(order_id)` raises InvalidId on a
malformed id; otherwise `update_one` setting `cancellationRequested` to
true, 404 when nothing matched. -/
def request_cancellation (order_id : String) (db : DB) : HRes × DB :=
  match parseObjectId order_id with
  | none => (.exn "InvalidId", db)
  | some oid =>
    let r := updateFirst (fun o => o.oid == oid)
      (fun o => { o with cancellationRequested := true }) db.orders
    if r.2 then
      (.ok 200 (.okMsg "Cancellation requested successfully"), { db with orders := r.1 })
    else
      (.ok 404 (.errMsg "Order not found"), db)

/-- `GET /api/admin/orders` (app.py `admin_get_orders`): all orders; the
projection names every field of the order document, so it is the identity
here (the `_id` to string conversion is representation only). -/
def admin_get_orders (db : DB) : HRes × DB :=
  (.ok 200 (.orderList db.orders), db)

/-- `PUT /api/admin/orders/(id)/status` (app.py
`admin_update_order_status`): presence check on status,
`ObjectId(order_id)` raising on a malformed id, `update_one` overwriting
the status verbatim, 404 when nothing matched. -/
def admin_update_order_status (order_id : String) (status : Option String)
    (db : DB) : HRes × DB :=
  if falsyS status then
    (.ok 400 (.errMsg "Missing status"), db)
  else
    match parseObjectId order_id with
    | none => (.exn "InvalidId", db)
    | some oid =>
      let r := updateFirst (fun o => o.oid == oid)
        (fun o => { o with status := status.getD "" }) db.orders
      if r.2 then
        (.ok 200 (.okMsg "Order status updated successfully"), { db with orders := r.1 })
      else
        (.ok 404 (.errMsg "Order not found"), db)

/-- `GET /api/cart/(email)` (app.py `get_cart`): the stored items of the
first cart matching the email, or the empty list when none exists; always
status 200. -/
def get_cart (user_email : String) (db : DB) : HRes × DB :=
  match db.carts.find? (fun c => c.user_email == user_email) with
  | some cart => (.ok 200 (.itemList cart.items), db)
  | none => (.ok 200 (.itemList []), db)

/-- `POST /api/cart` (app.py `save_cart`): truthiness check on user_email,
`is None` check on items, then `update_one(..., upsert=True)` replacing
the items wholesale, inserting the cart document when absent. -/
def save_cart (user_email : Option String) (items : Option (List OrderItem))
    (db : DB) : HRes × DB :=
  match items with
  | none => (.ok 400 (.errMsg "Missing user_email or items"), db)
  | some its =>
    if falsyS user_email then
      (.ok 400 (.errMsg "Missing user_email or items"), db)
    else
      let e := user_email.getD ""
      let r := updateFirst (fun c => c.user_email == e)
        (fun c => { c with items := its }) db.carts
      let carts := if r.2 then r.1 else db.carts ++ [{ user_email := e, items := its }]
      (.ok 200 (.okMsg "Cart saved successfully"), { db with carts := carts })

/-- `GET /api/admin/users` (app.py `admin_get_users`): all users with the
password field projected away. -/
def admin_get_users (db : DB) : HRes × DB :=
  (.ok 200 (.userList (db.users.map
    (fun u => { uid := u.uid, name := u.name, email := u.email }))), db)

/-- `DELETE /api/admin/users/(id)` (app.py `admin_delete_user`):
`ObjectId(user_id)` raising on a malformed id, lookup (404 if absent),
`delete_one` on the user, then `delete_many` of all orders carrying the
deleted user's email. -/
def admin_delete_user (user_id : String) (db : DB) : HRes × DB :=
  match parseObjectId user_id with
  | none => (.exn "InvalidId", db)
  | some uid =>
    match db.users.find? (fun u => u.uid == uid) with
    | none => (.ok 404 (.errMsg "User not found"), db)
    | some user =>
      let user_email := user.email
      let r := deleteFirst (fun u => u.uid == uid) db.users
      if !r.2 then
        (.ok 404 (.errMsg "User not found"), db)
      else
        (.ok 200 (.okMsg "User and their orders removed successfully"),
          { db with
              users := r.1
              orders := db.orders.filter (fun o => !(o.user_email == user_email)) })

/-- `PUT /api/admin/update-credentials` (app.py
`update_admin_credentials`): presence checks, lookup by current email (404
if absent), then `update_one` setting both email and hashed password; 500
when `modified_count` is zero (i.e. the new values equal the old). -/
def update_admin_credentials (current_email new_email new_password : Option String)
    (salt : String) (db : DB) : HRes × DB :=
  if falsyS current_email || falsyS new_email || falsyS new_password then
    (.ok 400 (.errMsg "Missing required fields"), db)
  else
    match db.users.find? (fun u => u.email == current_email.getD "") with
    | none => (.ok 404 (.errMsg "Admin user not found"), db)
    | some admin_user =>
      let hashed := generate_password_hash salt (new_password.getD "")
      let f := fun (u : User) => { u with email := new_email.getD "", password := hashed }
      let r := updateFirst (fun u => u.email == current_email.getD "") f db.users
      if f admin_user == admin_user then
        (.ok 500 (.errMsg "Failed to update admin credentials"), { db with users := r.1 })
      else
        (.ok 200 (.okMsg "Admin credentials updated successfully"), { db with users := r.1 })

/-- The documented operations, for stating temporal properties over
sequences of requests. -/
inductive Op where
  | opRegister (name email password : Option String) (salt : String)
  | opLogin (email password : Option String)
  | opUpdateStock (product_id : Int) (stock : Option Int)
  | opCreateOrder (user_email : Option String) (items : Option (List OrderItem))
      (city : Option String) (pincode : Option Int) (total_price : Option Int)
      (now : String)
  | opRequestCancellation (order_id : String)
  | opAdminUpdateStatus (order_id : String) (status : Option String)
  | opDeleteUser (user_id : String)
  | opSaveCart (user_email : Option String) (items : Option (List OrderItem))
  | opUpdateAdminCredentials (current_email new_email new_password : Option String)
      (salt : String)
  deriving Repr

/-- The database state after one operation. -/
def step (op : Op) (db : DB) : DB :=
  match op with
  | .opRegister n e p s => (register n e p s db).2
  | .opLogin e p => (login e p db).2
  | .opUpdateStock pid st => (update_stock pid st db).2.1
  | .opCreateOrder ue its c pc tp now => (create_order ue its c pc tp now db).2
  | .opRequestCancellation oid => (request_cancellation oid db).2
  | .opAdminUpdateStatus oid st => (admin_update_order_status oid st db).2
  | .opDeleteUser uid => (admin_delete_user uid db).2
  | .opSaveCart ue its => (save_cart ue its db).2
  | .opUpdateAdminCredentials ce ne np s => (update_admin_credentials ce ne np s db).2

/-- The database state after a sequence of operations. -/
def run (ops : List Op) (db : DB) : DB :=
  match ops with
  | [] => db
  | op :: rest => run rest (step op db)

/-- Whether a body is the JSON error shape `(error, message)`. -/
def Body.isErr : Body → Bool
  | .errMsg _ => true
  | _ => false

/-- The status codes of the documented taxonomy together with the success
codes. -/
def okStatus (n : Nat) : Bool :=
  n == 200 || n == 201 || n == 400 || n == 401 || n == 404 || n == 500

/-- A handler outcome is handled locally: a normal response with a
documented status code, carrying an error body whenever the status is an
error status; an escaped exception is never handled. -/
def resHandled : HRes → Bool
  | .ok st b => okStatus st && (decide (st < 400) || b.isErr)
  | .exn _ => false

/-- The order with the given store id, as `find?` locates it. -/
def findOrder (db : DB) (k : Nat) : Option Order :=
  db.orders.find? (fun o => o.oid == k)

/-- Store invariant maintained by the handlers: every order id was issued
by the generator, and order ids are unique (Mongo `_id` uniqueness). -/
def WForders (db : DB) : Prop :=
  (∀ o ∈ db.orders, o.oid < db.nextId) ∧ (db.orders.map Order.oid).Nodup

/-- One-step relation for the cancellation flag: the id generator does not
go backwards, and any order with a previously issued id that is present
after the step was present before it, with a monotone
`cancellationRequested`. -/
def MonoStep (db db' : DB) : Prop :=
  db.nextId ≤ db'.nextId ∧
  ∀ k, k < db.nextId → ∀ o', findOrder db' k = some o' →
    ∃ o, findOrder db k = some o ∧
      (o.cancellationRequested = true → o'.cancellationRequested = true)

/-- The empty database. -/
def emptyDB : DB :=
  { users := [], products := [], orders := [], carts := [], nextId := 0 }

/-- Stored hash of the sample user's password "pw". -/
def aliceHash : String := generate_password_hash "ab" "pw"

/-- A sample user document. -/
def alice : User :=
  { uid := 0, name := "Alice", email := "alice@example.com", password := aliceHash }

/-- A sample order that already has a cancellation request. -/
def order0 : Order :=
  { oid := 0, user_email := "alice@example.com", items := [], city := "Chennai"
    pincode := 600001, total_price := 100, status := "Pending"
    order_date := "2026-01-01T00:00:00", cancellationRequested := true }

/-- A sample order without a cancellation request. -/
def order1 : Order :=
  { oid := 1, user_email := "alice@example.com", items := [], city := "Chennai"
    pincode := 600001, total_price := 50, status := "Pending"
    order_date := "2026-01-02T00:00:00", cancellationRequested := false }

/-- A small populated database used to evaluate the theorems on concrete
inputs. -/
def sampleDB : DB :=
  { users := [alice]
    products := [{ id := 42, name := "Widget", price := 10, stock := 3, image := some "img.png" }]
    orders := [order0, order1]
    carts := [{ user_email := "alice@example.com", items := [] }]
    nextId := 2 }

theorem updateFirst_snd (p : α → Bool) (f : α → α) (l : List α) :
    (updateFirst p f l).2 = l.any p := by
  induction l with
  | nil => rfl
  | cons x xs ih =>
    by_cases h : p x <;> simp [updateFirst, h, ih]

theorem updateFirst_fst_of_none (p : α → Bool) (f : α → α) (l : List α)
    (h : l.any p = false) : (updateFirst p f l).1 = l := by
  induction l with
  | nil => rfl
  | cons x xs ih =>
    simp only [List.any_cons, Bool.or_eq_false_iff] at h
    simp [updateFirst, h.1, ih h.2]

theorem map_key_updateFirst (key : α → β) (p : α → Bool) (f : α → α)
    (hf : ∀ x, key (f x) = key x) (l : List α) :
    ((updateFirst p f l).1.map key) = l.map key := by
  induction l with
  | nil => rfl
  | cons x xs ih =>
    by_cases h : p x <;> simp [updateFirst, h, ih, hf]

theorem mem_updateFirst (p : α → Bool) (f : α → α) (l : List α) :
    ∀ x ∈ (updateFirst p f l).1, x ∈ l ∨ ∃ y ∈ l, x = f y := by
  induction l with
  | nil => simp [updateFirst]
  | cons a as ih =>
    intro x hx
    by_cases h : p a
    · have hupd : (updateFirst p f (a :: as)).1 = f a :: as := by simp [updateFirst, h]
      rw [hupd] at hx
      rcases List.mem_cons.mp hx with hx | hx
      · exact Or.inr ⟨a, List.mem_cons_self a as, hx⟩
      · exact Or.inl (List.mem_cons_of_mem a hx)
    · have hupd : (updateFirst p f (a :: as)).1 = a :: (updateFirst p f as).1 := by
        simp [updateFirst, h]
      rw [hupd] at hx
      rcases List.mem_cons.mp hx with hx | hx
      · exact Or.inl (hx ▸ List.mem_cons_self a as)
      · rcases ih x hx with h1 | ⟨y, hy, he⟩
        · exact Or.inl (List.mem_cons_of_mem a h1)
        · exact Or.inr ⟨y, List.mem_cons_of_mem a hy, he⟩

theorem find?_updateFirst [DecidableEq β] (key : α → β) (f : α → α)
    (hf : ∀ x, key (f x) = key x) (k k₀ : β) (l : List α) :
    ((updateFirst (fun x => key x == k) f l).1.find? (fun x => key x == k₀)) =
      if k₀ = k then (l.find? (fun x => key x == k₀)).map f
      else l.find? (fun x => key x == k₀) := by
  induction l with
  | nil => by_cases h : k₀ = k <;> simp [updateFirst, h]
  | cons x xs ih =>
    by_cases hx : (key x == k) = true
    · have hxk : key x = k := by simpa using hx
      have hupd : (updateFirst (fun y => key y == k) f (x :: xs)).1 = f x :: xs := by
        simp [updateFirst, hx]
      rw [hupd]
      by_cases h0 : k₀ = k
      · subst h0
        have h1 : (key (f x) == k₀) = true := by simp [hf, hxk]
        have h2 : (key x == k₀) = true := by simp [hxk]
        simp [List.find?_cons, h1, h2]
      · have h1 : (key (f x) == k₀) = false := by
          simp only [hf, beq_eq_false_iff_ne, ne_eq, hxk]
          exact fun hc => h0 hc.symm
        have h2 : (key x == k₀) = false := by
          simp only [beq_eq_false_iff_ne, ne_eq, hxk]
          exact fun hc => h0 hc.symm
        simp [List.find?_cons, h1, h2, h0]
    · have hupd : (updateFirst (fun y => key y == k) f (x :: xs)).1 =
          x :: (updateFirst (fun y => key y == k) f xs).1 := by
        simp [updateFirst, hx]
      rw [hupd]
      by_cases hx0 : (key x == k₀) = true
      · have hk0 : ¬(k₀ = k) := by
          intro hc; subst hc
          exact hx (by simpa using hx0)
        simp [List.find?_cons, hx0, hk0]
      · simp only [List.find?_cons, hx0]
        rw [ih]

theorem updateFirst_idem (p : α → Bool) (f : α → α)
    (hpf : ∀ x, p (f x) = p x) (hff : ∀ x, f (f x) = f x) (l : List α) :
    updateFirst p f (updateFirst p f l).1 = ((updateFirst p f l).1, (updateFirst p f l).2) := by
  induction l with
  | nil => rfl
  | cons x xs ih =>
    by_cases h : p x
    · simp [updateFirst, h, hpf, hff]
    · simp only [updateFirst, h, Bool.false_eq_true, if_neg, not_false_iff]
      simp [updateFirst, h, ih]

theorem deleteFirst_snd (p : α → Bool) (l : List α) :
    (deleteFirst p l).2 = l.any p := by
  induction l with
  | nil => rfl
  | cons x xs ih =>
    by_cases h : p x <;> simp [deleteFirst, h, ih]

theorem deleteFirst_key_not_mem [DecidableEq β] (key : α → β) (k : β) (l : List α)
    (hnodup : (l.map key).Nodup) :
    ∀ x ∈ (deleteFirst (fun y => key y == k) l).1, key x ≠ k := by
  induction l with
  | nil => simp [deleteFirst]
  | cons a as ih =>
    simp only [List.map_cons, List.nodup_cons] at hnodup
    intro x hx
    by_cases h : (key a == k) = true
    · have hak : key a = k := by simpa using h
      have hdel : (deleteFirst (fun y => key y == k) (a :: as)).1 = as := by
        simp [deleteFirst, h]
      rw [hdel] at hx
      intro hxk
      exact hnodup.1 (by rw [hak, ← hxk]; exact List.mem_map_of_mem key hx)
    · have hdel : (deleteFirst (fun y => key y == k) (a :: as)).1 =
          a :: (deleteFirst (fun y => key y == k) as).1 := by
        simp [deleteFirst, h]
      rw [hdel] at hx
      rcases List.mem_cons.mp hx with hx | hx
      · subst hx
        intro hc
        exact h (by simp [hc])
      · exact ih hnodup.2 x hx

theorem find?_append_some (p : α → Bool) (l l' : List α) (a : α)
    (h : l.find? p = some a) : (l ++ l').find? p = some a := by
  induction l with
  | nil => simp at h
  | cons x xs ih =>
    by_cases hx : p x
    · simp_all [List.find?_cons, hx]
    · simp only [List.find?_cons] at h
      simp only [hx] at h
      simpa [List.find?_cons, hx] using ih h

theorem find?_append_none (p : α → Bool) (l l' : List α)
    (h : l.find? p = none) : (l ++ l').find? p = l'.find? p := by
  induction l with
  | nil => simp
  | cons x xs ih =>
    by_cases hx : p x
    · simp [List.find?_cons, hx] at h
    · simp only [List.find?_cons, hx] at h ⊢
      simpa [List.find?_cons, hx] using ih h

theorem find?_eq_of_nodup_mem [DecidableEq β] (key : α → β) (l : List α) (x : α)
    (hnodup : (l.map key).Nodup) (hx : x ∈ l) :
    l.find? (fun y => key y == key x) = some x := by
  induction l with
  | nil => simp at hx
  | cons a as ih =>
    simp only [List.map_cons, List.nodup_cons] at hnodup
    rcases List.mem_cons.mp hx with hx | hx
    · subst hx
      simp [List.find?_cons]
    · have hne : (key a == key x) = false := by
        simp only [beq_eq_false_iff_ne, ne_eq]
        intro hc
        exact hnodup.1 (hc ▸ List.mem_map_of_mem key hx)
      simp only [List.find?_cons, hne]
      exact ih hnodup.2 hx

theorem hexEncode_length (l : List Char) : (hexEncode l).length = 2 * l.length := by
  induction l with
  | nil => rfl
  | cons c cs ih => simp [hexEncode, ih]; omega

theorem generate_password_hash_ne_plain (salt password : String) :
    generate_password_hash salt password ≠ password := by
  intro h
  have hlen := congrArg String.length h
  have hpre : ("pbkdf2:sha256:600000$" : String).length = 21 := rfl
  have hdol : ("$" : String).length = 1 := rfl
  have hbar : ("|" : String).length = 1 := rfl
  have h2 : (pbkdf2Digest salt password).length =
      2 * (salt.length + 1 + password.length) := by
    have hd : (pbkdf2Digest salt password).length =
        (hexEncode (salt ++ "|" ++ password).data).length := rfl
    have hd2 : ((salt ++ "|" ++ password).data).length = (salt ++ "|" ++ password).length := rfl
    rw [hd, hexEncode_length, hd2, String.length_append, String.length_append, hbar]
  simp only [generate_password_hash] at hlen
  rw [String.length_append, String.length_append, String.length_append, hpre, hdol, h2] at hlen
  omega

theorem isEmpty_eq_false (s : String) (h : s ≠ "") : s.isEmpty = false := by
  rw [Bool.eq_false_iff]
  intro hc
  exact h ((String.isEmpty_iff s).mp hc)

theorem falsyS_some_false (s : String) (h : s ≠ "") : falsyS (some s) = false := by
  simp only [falsyS]
  exact isEmpty_eq_false s h

theorem find?_pred (p : α → Bool) (l : List α) (a : α)
    (h : l.find? p = some a) : p a = true := by
  induction l with
  | nil => simp at h
  | cons x xs ih =>
    by_cases hx : p x = true
    · rw [List.find?_cons, hx] at h
      simp only [Option.some.injEq] at h
      exact h ▸ hx
    · rw [List.find?_cons] at h
      simp only [Bool.not_eq_true] at hx
      rw [hx] at h
      exact ih h

theorem find?_mem (p : α → Bool) (l : List α) (a : α)
    (h : l.find? p = some a) : a ∈ l := by
  induction l with
  | nil => simp at h
  | cons x xs ih =>
    by_cases hx : p x = true
    · rw [List.find?_cons, hx] at h
      simp only [Option.some.injEq] at h
      exact h ▸ List.mem_cons_self x xs
    · rw [List.find?_cons] at h
      simp only [Bool.not_eq_true] at hx
      rw [hx] at h
      exact List.mem_cons_of_mem x (ih h)

theorem exists_id_updateFirst (l : List Product) (pid s : Int)
    (h : ∃ q ∈ l, q.id = pid) :
    ∃ q ∈ (updateFirst (fun x => x.id == pid) (fun x => { x with stock := s }) l).1,
      q.id = pid ∧ q.stock = s := by
  induction l with
  | nil => simp at h
  | cons a as ih =>
    by_cases ha : (a.id == pid) = true
    · have hupd : (updateFirst (fun x => x.id == pid) (fun x => { x with stock := s }) (a :: as)).1 =
          { a with stock := s } :: as := by simp [updateFirst, ha]
      rw [hupd]
      exact ⟨{ a with stock := s }, List.mem_cons_self _ _, by simpa using ha, rfl⟩
    · have hupd : (updateFirst (fun x => x.id == pid) (fun x => { x with stock := s }) (a :: as)).1 =
          a :: (updateFirst (fun x => x.id == pid) (fun x => { x with stock := s }) as).1 := by
        simp [updateFirst, ha]
      rw [hupd]
      rcases h with ⟨q, hq, hqid⟩
      rcases List.mem_cons.mp hq with hq | hq
      · subst hq
        exact absurd (by simp [hqid]) ha
      · rcases ih ⟨q, hq, hqid⟩ with ⟨q', hq', hprop⟩
        exact ⟨q', List.mem_cons_of_mem a hq', hprop⟩

theorem all_id_updateFirst (l : List Product) (pid s : Int)
    (hnodup : (l.map Product.id).Nodup) :
    ∀ q ∈ (updateFirst (fun x => x.id == pid) (fun x => { x with stock := s }) l).1,
      q.id = pid → q.stock = s := by
  induction l with
  | nil => simp [updateFirst]
  | cons a as ih =>
    simp only [List.map_cons, List.nodup_cons] at hnodup
    intro q hq hqid
    by_cases ha : (a.id == pid) = true
    · have hak : a.id = pid := by simpa using ha
      have hupd : (updateFirst (fun x => x.id == pid) (fun x => { x with stock := s }) (a :: as)).1 =
          { a with stock := s } :: as := by simp [updateFirst, ha]
      rw [hupd] at hq
      rcases List.mem_cons.mp hq with hq | hq
      · rw [hq]
      · exact absurd (by rw [hak, ← hqid]; exact List.mem_map_of_mem Product.id hq) hnodup.1
    · have hupd : (updateFirst (fun x => x.id == pid) (fun x => { x with stock := s }) (a :: as)).1 =
          a :: (updateFirst (fun x => x.id == pid) (fun x => { x with stock := s }) as).1 := by
        simp [updateFirst, ha]
      rw [hupd] at hq
      rcases List.mem_cons.mp hq with hq | hq
      · subst hq
        exact absurd (by simp [hqid]) ha
      · exact ih hnodup.2 q hq hqid

/-- Claim C1: for an existing product id p (product ids unique) and a
present stock value s, updateStock answers 200, emits exactly one
stock_update broadcast carrying p and s, and afterwards listProducts shows
stock s for id p; a missing stock field yields the 400 validation error
and an unknown product id the 404 error, and in both failure cases no
broadcast is emitted and the database is unchanged. -/
theorem claim_c1 (db : DB) (p s : Int) :
    ((db.products.map Product.id).Nodup → (∃ q ∈ db.products, q.id = p) →
      (update_stock p (some s) db).1 = .ok 200 (.okMsg "Stock updated") ∧
      (update_stock p (some s) db).2.2 = [{ product_id := p, stock := s }] ∧
      (get_products (update_stock p (some s) db).2.1).1 =
        .ok 200 (.productList ((update_stock p (some s) db).2.1).products) ∧
      (∃ q ∈ ((update_stock p (some s) db).2.1).products, q.id = p ∧ q.stock = s) ∧
      (∀ q ∈ ((update_stock p (some s) db).2.1).products, q.id = p → q.stock = s)) ∧
    (update_stock p none db = (.ok 400 (.errMsg "Missing stock value"), db, [])) ∧
    ((∀ q ∈ db.products, q.id ≠ p) →
      update_stock p (some s) db = (.ok 404 (.errMsg "Product not found"), db, [])) := by
  refine ⟨?_, rfl, ?_⟩
  · intro hnodup hex
    have hany : db.products.any (fun x => x.id == p) = true := by
      rcases hex with ⟨q, hq, hqid⟩
      exact List.any_eq_true.mpr ⟨q, hq, by simp [hqid]⟩
    have hmatched : (updateFirst (fun x => x.id == p)
        (fun x => { x with stock := s }) db.products).2 = true := by
      rw [updateFirst_snd]; exact hany
    refine ⟨?_, ?_, ?_, ?_, ?_⟩
    · simp [update_stock, hmatched]
    · simp [update_stock, hmatched]
    · simp [update_stock, hmatched, get_products]
    · have := exists_id_updateFirst db.products p s hex
      simpa [update_stock, hmatched] using this
    · have := all_id_updateFirst db.products p s hnodup
      simpa [update_stock, hmatched] using this
  · intro hnone
    have hany : db.products.any (fun x => x.id == p) = false := by
      rw [List.any_eq_false]
      intro q hq
      simp [hnone q hq]
    have hmatched : (updateFirst (fun x => x.id == p)
        (fun x => { x with stock := s }) db.products).2 = false := by
      rw [updateFirst_snd]; exact hany
    simp [update_stock, hmatched]

theorem get_cart_fst_of_carts_eq (db1 db2 : DB) (e : String)
    (h : db1.carts = db2.carts) : (get_cart e db1).1 = (get_cart e db2).1 := by
  unfold get_cart
  rw [h]
  cases db2.carts.find? (fun c => c.user_email == e) <;> rfl

theorem get_cart_after_save (db : DB) (e : String) (its : List OrderItem)
    (he : e ≠ "") :
    (get_cart e (save_cart (some e) (some its) db).2).1 = .ok 200 (.itemList its) := by
  have hfe : falsyS (some e) = false := falsyS_some_false e he
  by_cases hm : (updateFirst (fun c => c.user_email == e)
      (fun c => { c with items := its }) db.carts).2 = true
  · have hsave : ((save_cart (some e) (some its) db).2).carts =
        (updateFirst (fun c => c.user_email == e)
          (fun c => { c with items := its }) db.carts).1 := by
      simp [save_cart, hfe, hm]
    have hany : db.carts.any (fun c => c.user_email == e) = true := by
      rw [updateFirst_snd] at hm
      exact hm
    rcases List.any_eq_true.mp hany with ⟨c, hc, hce⟩
    have hfind : (db.carts.find? (fun c => c.user_email == e)).isSome := by
      rw [List.find?_isSome]
      exact ⟨c, hc, hce⟩
    rcases Option.isSome_iff_exists.mp hfind with ⟨c0, hc0⟩
    have hkey := find?_updateFirst Cart.user_email
      (fun c => { c with items := its }) (fun x => rfl) e e db.carts
    simp only [if_pos] at hkey
    unfold get_cart
    rw [hsave, hkey, hc0]
    rfl
  · have hsave : ((save_cart (some e) (some its) db).2).carts =
        db.carts ++ [{ user_email := e, items := its }] := by
      simp [save_cart, hfe, hm]
    have hany : db.carts.any (fun c => c.user_email == e) = false := by
      rw [updateFirst_snd] at hm
      exact Bool.not_eq_true _ ▸ (by simpa using hm)
    have hnone : db.carts.find? (fun c => c.user_email == e) = none := by
      rw [List.find?_eq_none]
      intro c hc
      rcases List.any_eq_false.mp hany c hc with h
      exact h
    unfold get_cart
    rw [hsave, find?_append_none _ _ _ hnone]
    simp [List.find?_cons]

/-- Claim C2: with the user email present, a second saveCart fully
replaces the first one, so getCart returns exactly the second item
sequence with status 200; when no cart document exists for the email,
saveCart creates one by upsert, and getCart returns the empty sequence
with status 200 rather than an error. -/
theorem claim_c2 (db : DB) (e : String) (i1 i2 : List OrderItem) (he : e ≠ "") :
    (get_cart e (save_cart (some e) (some i2)
        ((save_cart (some e) (some i1) db).2)).2).1 = .ok 200 (.itemList i2) ∧
    (db.carts.find? (fun c => c.user_email == e) = none →
      ((save_cart (some e) (some i1) db).2).carts =
        db.carts ++ [{ user_email := e, items := i1 }]) ∧
    (db.carts.find? (fun c => c.user_email == e) = none →
      get_cart e db = (.ok 200 (.itemList []), db)) := by
  refine ⟨get_cart_after_save _ e i2 he, ?_, ?_⟩
  · intro hnone
    have hfe : falsyS (some e) = false := falsyS_some_false e he
    have hany : db.carts.any (fun c => c.user_email == e) = false := by
      rw [List.any_eq_false]
      intro c hc
      exact List.find?_eq_none.mp hnone c hc
    have hm : (updateFirst (fun c => c.user_email == e)
        (fun c => { c with items := i1 }) db.carts).2 = false := by
      rw [updateFirst_snd]; exact hany
    simp [save_cart, hfe, hm]
  · intro hnone
    simp [get_cart, hnone]

/-- Claim C3: with a well-formed user id, deleteUser answers 404 and
changes nothing when no user has that id; otherwise it answers 200,
removes that user (user ids unique), and removes every order carrying the
deleted user's email, so no such order appears in a subsequent
adminListOrders result. -/
theorem claim_c3 (db : DB) (s : String) (uid : Nat) (u : User)
    (hparse : parseObjectId s = some uid) :
    (db.users.find? (fun x => x.uid == uid) = none →
      admin_delete_user s db = (.ok 404 (.errMsg "User not found"), db)) ∧
    (db.users.find? (fun x => x.uid == uid) = some u →
      (admin_delete_user s db).1 = .ok 200 (.okMsg "User and their orders removed successfully") ∧
      ((db.users.map User.uid).Nodup →
        ∀ x ∈ ((admin_delete_user s db).2).users, x.uid ≠ uid) ∧
      (∀ o ∈ ((admin_delete_user s db).2).orders, o.user_email ≠ u.email) ∧
      (admin_get_orders ((admin_delete_user s db).2)).1 =
        .ok 200 (.orderList (((admin_delete_user s db).2).orders))) := by
  constructor
  · intro hnone
    simp [admin_delete_user, hparse, hnone]
  · intro hfind
    have hu0 := find?_pred _ _ _ hfind
    have hmem : u ∈ db.users := find?_mem _ _ _ hfind
    have hany : db.users.any (fun x => x.uid == uid) = true :=
      List.any_eq_true.mpr ⟨u, hmem, hu0⟩
    have hdel : (deleteFirst (fun x => x.uid == uid) db.users).2 = true := by
      rw [deleteFirst_snd]; exact hany
    refine ⟨?_, ?_, ?_, ?_⟩
    · simp [admin_delete_user, hparse, hfind, hdel]
    · intro hnodup x hx
      have hx2 : x ∈ (deleteFirst (fun y => y.uid == uid) db.users).1 := by
        simpa [admin_delete_user, hparse, hfind, hdel] using hx
      exact deleteFirst_key_not_mem User.uid uid db.users hnodup x hx2
    · intro o ho
      have ho2 : o ∈ db.orders.filter (fun x => !(x.user_email == u.email)) := by
        simpa [admin_delete_user, hparse, hfind, hdel] using ho
      have := (List.mem_filter.mp ho2).2
      simpa using this
    · rfl

/-- Claim C4: with all three fields present, registering an email that
already exists fails with the 400 conflict error and leaves the users
collection unchanged; registering a fresh email inserts exactly one new
user whose stored password is the salted hash of the submitted password,
which is never the plaintext password itself. -/
theorem claim_c4 (db : DB) (n e p salt : String)
    (hn : n ≠ "") (he : e ≠ "") (hp : p ≠ "") :
    ((db.users.find? (fun u => u.email == e)).isSome = true →
      register (some n) (some e) (some p) salt db =
        (.ok 400 (.errMsg "Email already registered"), db)) ∧
    ((db.users.find? (fun u => u.email == e)).isSome = false →
      register (some n) (some e) (some p) salt db =
        (.ok 201 (.okMsg "User registered successfully"),
          { db with
              users := db.users ++
                [{ uid := db.nextId
                   name := n
                   email := e
                   password := generate_password_hash salt p }]
              nextId := db.nextId + 1 })) ∧
    generate_password_hash salt p ≠ p := by
  have hfn : falsyS (some n) = false := falsyS_some_false n hn
  have hfe : falsyS (some e) = false := falsyS_some_false e he
  have hfp : falsyS (some p) = false := falsyS_some_false p hp
  refine ⟨?_, ?_, generate_password_hash_ne_plain salt p⟩
  · intro hsome
    simp [register, hfn, hfe, hfp, hsome]
  · intro hnone
    simp [register, hfn, hfe, hfp, hnone]

/-- Claim C5: with both fields present, login produces the identical
generic 401 response whether no user has the email or the user exists but
the hash check fails, so the two causes are indistinguishable from the
response; when the user exists and the hash matches, login succeeds with
the user's display name. -/
theorem claim_c5 (db : DB) (e p : String) (he : e ≠ "") (hp : p ≠ "") :
    (db.users.find? (fun u => u.email == e) = none →
      login (some e) (some p) db = (.ok 401 (.errMsg "Invalid email or password"), db)) ∧
    (∀ u, db.users.find? (fun u => u.email == e) = some u →
      check_password_hash u.password p = false →
      login (some e) (some p) db = (.ok 401 (.errMsg "Invalid email or password"), db)) ∧
    (∀ u, db.users.find? (fun u => u.email == e) = some u →
      check_password_hash u.password p = true →
      login (some e) (some p) db = (.ok 200 (.loginOk "Login successful" u.name), db)) := by
  have hfe : falsyS (some e) = false := falsyS_some_false e he
  have hfp : falsyS (some p) = false := falsyS_some_false p hp
  refine ⟨?_, ?_, ?_⟩
  · intro hnone
    simp [login, hfe, hfp, hnone]
  · intro u hfind hchk
    simp [login, hfe, hfp, hfind, hchk]
  · intro u hfind hchk
    simp [login, hfe, hfp, hfind, hchk]

/-- Claim C6: a successful createOrder stores the order with each item's
image copied from the product currently matching the item's id (empty
string when the product or its image field is missing), with status
Pending, cancellationRequested false and order_date equal to the current
UTC ISO timestamp, and it never changes the products collection (no stock
decrement). -/
theorem claim_c6 (db : DB) (ue ci : Option String) (its : Option (List OrderItem))
    (pc tp : Option Int) (now : String)
    (h1 : falsyS ue = false) (h2 : falsyL its = false) (h3 : falsyS ci = false)
    (h4 : falsyI pc = false) (h5 : tp.isNone = false) :
    (create_order ue its ci pc tp now db).1 = .ok 201 (.okMsg "Order placed successfully") ∧
    ((create_order ue its ci pc tp now db).2).orders = db.orders ++
      [{ oid := db.nextId
         user_email := ue.getD ""
         items := (its.getD []).map (enrichItem db.products)
         city := ci.getD ""
         pincode := pc.getD 0
         total_price := tp.getD 0
         status := "Pending"
         order_date := now
         cancellationRequested := false }] ∧
    ((create_order ue its ci pc tp now db).2).products = db.products ∧
    (∀ item pr img, db.products.find? (fun x => x.id == item.id) = some pr →
      pr.image = some img → enrichItem db.products item = { item with image := img }) ∧
    (∀ item pr, db.products.find? (fun x => x.id == item.id) = some pr →
      pr.image = none → enrichItem db.products item = { item with image := "" }) ∧
    (∀ item, db.products.find? (fun x => x.id == item.id) = none →
      enrichItem db.products item = { item with image := "" }) := by
  refine ⟨?_, ?_, ?_, ?_, ?_, ?_⟩
  · simp [create_order, h1, h2, h3, h4, h5]
  · simp [create_order, h1, h2, h3, h4, h5]
  · simp [create_order, h1, h2, h3, h4, h5]
  · intro item pr img hfind himg
    simp [enrichItem, hfind, himg]
  · intro item pr hfind himg
    simp [enrichItem, hfind, himg]
  · intro item hfind
    simp [enrichItem, hfind]

/-- Claim C7 counterexample: a request with every field present and
non-null but an empty items list is rejected with the 400 validation
error instead of being created, because the handler tests Python
truthiness of items rather than only missing/null. -/
theorem claim_c7_counterexample :
    create_order (some "alice@example.com") (some []) (some "Chennai") (some 600001)
        (some 100) "2026-01-01T00:00:00" emptyDB =
      (.ok 400 (.errMsg "Missing required order fields"), emptyDB) := by decide

/-- Claim C7 amended: createOrder fails with the 400 validation error
exactly when user_email, items, city or pincode is Python-falsy (missing,
null, empty string, empty list, or the number 0) or total_price is
missing/null; in particular 0 as total_price is accepted, but an empty
items list or 0 as pincode is rejected. Otherwise the order is created
with status 201. -/
theorem claim_c7_amended (db : DB) (ue ci : Option String)
    (its : Option (List OrderItem)) (pc tp : Option Int) (now : String) :
    ((create_order ue its ci pc tp now db).1 =
        .ok 400 (.errMsg "Missing required order fields") ↔
      (falsyS ue || falsyL its || falsyS ci || falsyI pc || tp.isNone) = true) ∧
    ((falsyS ue || falsyL its || falsyS ci || falsyI pc || tp.isNone) = false →
      (create_order ue its ci pc tp now db).1 =
        .ok 201 (.okMsg "Order placed successfully")) := by
  by_cases hc : (falsyS ue || falsyL its || falsyS ci || falsyI pc || tp.isNone) = true
  · constructor
    · simp [create_order, hc]
    · intro hfalse
      rw [hc] at hfalse
      exact absurd hfalse (by simp)
  · have hc2 : (falsyS ue || falsyL its || falsyS ci || falsyI pc || tp.isNone) = false := by
      simp only [Bool.not_eq_true] at hc
      exact hc
    constructor
    · simp [create_order, hc2]
    · intro _
      simp [create_order, hc2]

/-- Claim C10: deleteUser touches only the users and orders collections:
for any input (in particular any successful delete) the products and
carts collections are unchanged, so a cart saved by the deleted user
survives and getCart answers exactly as before the delete. -/
theorem claim_c10 (db : DB) (s : String) :
    ((admin_delete_user s db).2).products = db.products ∧
    ((admin_delete_user s db).2).carts = db.carts ∧
    (∀ e, (get_cart e ((admin_delete_user s db).2)).1 = (get_cart e db).1) := by
  have hstate : ((admin_delete_user s db).2).products = db.products ∧
      ((admin_delete_user s db).2).carts = db.carts := by
    cases hp : parseObjectId s with
    | none => simp [admin_delete_user, hp]
    | some uid =>
      cases hf : db.users.find? (fun u => u.uid == uid) with
      | none => simp [admin_delete_user, hp, hf]
      | some u =>
        by_cases hd : (deleteFirst (fun x => x.uid == uid) db.users).2 = true <;>
          simp [admin_delete_user, hp, hf, hd]
  exact ⟨hstate.1, hstate.2, fun e => get_cart_fst_of_carts_eq _ _ e hstate.2⟩

theorem handled_register (n e p : Option String) (salt : String) (db : DB) :
    resHandled (register n e p salt db).1 = true := by
  unfold register
  split
  · rfl
  · dsimp only
    split
    · rfl
    · rfl

theorem handled_login (e p : Option String) (db : DB) :
    resHandled (login e p db).1 = true := by
  unfold login
  split
  · rfl
  · split
    · rfl
    · split
      · rfl
      · rfl

theorem handled_get_products (db : DB) : resHandled (get_products db).1 = true := rfl

theorem handled_update_stock (pid : Int) (st : Option Int) (db : DB) :
    resHandled (update_stock pid st db).1 = true := by
  unfold update_stock
  split
  · rfl
  · dsimp only
    split
    · rfl
    · rfl

theorem handled_create_order (ue ci : Option String) (its : Option (List OrderItem))
    (pc tp : Option Int) (now : String) (db : DB) :
    resHandled (create_order ue its ci pc tp now db).1 = true := by
  unfold create_order
  split
  · rfl
  · rfl

theorem handled_get_orders (e : String) (db : DB) :
    resHandled (get_orders e db).1 = true := rfl

theorem handled_request_cancellation (s : String) (db : DB)
    (hv : isValidObjectId s = true) :
    resHandled (request_cancellation s db).1 = true := by
  unfold request_cancellation parseObjectId
  rw [hv]
  simp only [if_true]
  split
  · rfl
  · rfl

theorem handled_admin_get_orders (db : DB) :
    resHandled (admin_get_orders db).1 = true := rfl

theorem handled_admin_update_order_status (s : String) (st : Option String) (db : DB)
    (hv : isValidObjectId s = true) :
    resHandled (admin_update_order_status s st db).1 = true := by
  unfold admin_update_order_status parseObjectId
  rw [hv]
  simp only [if_true]
  split
  · rfl
  · split
    · rfl
    · rfl

theorem handled_get_cart (e : String) (db : DB) :
    resHandled (get_cart e db).1 = true := by
  unfold get_cart
  split
  · rfl
  · rfl

theorem handled_save_cart (ue : Option String) (its : Option (List OrderItem)) (db : DB) :
    resHandled (save_cart ue its db).1 = true := by
  unfold save_cart
  split
  · rfl
  · split
    · rfl
    · rfl

theorem handled_admin_get_users (db : DB) :
    resHandled (admin_get_users db).1 = true := rfl

theorem handled_admin_delete_user (s : String) (db : DB)
    (hv : isValidObjectId s = true) :
    resHandled (admin_delete_user s db).1 = true := by
  unfold admin_delete_user parseObjectId
  rw [hv]
  simp only [if_true]
  split
  · rfl
  · split
    · rfl
    · rfl

theorem handled_update_admin_credentials (ce ne np : Option String) (salt : String)
    (db : DB) :
    resHandled (update_admin_credentials ce ne np salt db).1 = true := by
  unfold update_admin_credentials
  split
  · rfl
  · split
    · rfl
    · dsimp only
      split
      · rfl
      · rfl

/-- Claim C8 counterexample: an order id path segment that is not a
well-formed ObjectId makes the ObjectId constructor raise InvalidId,
which escapes requestCancellation unhandled instead of being surfaced as
a JSON error body from the documented taxonomy. -/
theorem claim_c8_counterexample :
    (request_cancellation "not-a-valid-id" emptyDB).1 = .exn "InvalidId" ∧
    resHandled (request_cancellation "not-a-valid-id" emptyDB).1 = false := by decide

/-- Claim C8 amended: every operation whose order/user id path segments
are well-formed ObjectIds handles its errors locally and returns a
response with a status code from the documented taxonomy whose body is
the JSON error shape whenever the status is an error status; a malformed
id path segment instead raises InvalidId out of the handler. -/
theorem claim_c8_amended (db : DB) (n e p ce ne np ue ue2 ci : Option String)
    (salt salt2 em em2 oid1 oid2 uid1 now : String) (st2 : Option String)
    (its its2 : Option (List OrderItem)) (pid : Int) (st : Option Int)
    (pc tp : Option Int) :
    resHandled (register n e p salt db).1 = true ∧
    resHandled (login e p db).1 = true ∧
    resHandled (get_products db).1 = true ∧
    resHandled (update_stock pid st db).1 = true ∧
    resHandled (create_order ue its ci pc tp now db).1 = true ∧
    resHandled (get_orders em db).1 = true ∧
    (isValidObjectId oid1 = true → resHandled (request_cancellation oid1 db).1 = true) ∧
    resHandled (admin_get_orders db).1 = true ∧
    (isValidObjectId oid2 = true →
      resHandled (admin_update_order_status oid2 st2 db).1 = true) ∧
    resHandled (get_cart em2 db).1 = true ∧
    resHandled (save_cart ue2 its2 db).1 = true ∧
    resHandled (admin_get_users db).1 = true ∧
    (isValidObjectId uid1 = true → resHandled (admin_delete_user uid1 db).1 = true) ∧
    resHandled (update_admin_credentials ce ne np salt2 db).1 = true :=
  ⟨handled_register n e p salt db, handled_login e p db, handled_get_products db,
   handled_update_stock pid st db, handled_create_order ue ci its pc tp now db,
   handled_get_orders em db, handled_request_cancellation oid1 db,
   handled_admin_get_orders db, handled_admin_update_order_status oid2 st2 db,
   handled_get_cart em2 db, handled_save_cart ue2 its2 db, handled_admin_get_users db,
   handled_admin_delete_user uid1 db, handled_update_admin_credentials ce ne np salt2 db⟩

theorem monoStep_refl (db : DB) : MonoStep db db := by
  refine ⟨le_refl _, ?_⟩
  intro k hk o2 h
  exact ⟨o2, h, id⟩

theorem monoStep_trans (a b c : DB) (h1 : MonoStep a b) (h2 : MonoStep b c) :
    MonoStep a c := by
  refine ⟨le_trans h1.1 h2.1, ?_⟩
  intro k hk o'' hc
  rcases h2.2 k (lt_of_lt_of_le hk h1.1) o'' hc with ⟨o', hb, m2⟩
  rcases h1.2 k hk o' hb with ⟨o, ha, m1⟩
  exact ⟨o, ha, fun hh => m2 (m1 hh)⟩

theorem monoStep_of_orders_eq (db db' : DB) (ho : db'.orders = db.orders)
    (hn : db.nextId ≤ db'.nextId) : MonoStep db db' := by
  refine ⟨hn, ?_⟩
  intro k _ o' h
  unfold findOrder at h ⊢
  rw [ho] at h
  exact ⟨o', h, id⟩

theorem monoStep_append (db db' : DB) (o : Order) (ho : o.oid = db.nextId)
    (h1 : db'.orders = db.orders ++ [o]) (h2 : db'.nextId = db.nextId + 1) :
    MonoStep db db' := by
  refine ⟨by rw [h2]; exact Nat.le_succ _, ?_⟩
  intro k hk o' h
  unfold findOrder at h ⊢
  rw [h1] at h
  cases hf : db.orders.find? (fun x => x.oid == k) with
  | some a =>
    have hh : (db.orders ++ [o]).find? (fun x => x.oid == k) = some a :=
      find?_append_some _ _ _ _ hf
    rw [hh] at h
    obtain rfl : a = o' := Option.some.inj h
    exact ⟨a, rfl, id⟩
  | none =>
    rw [find?_append_none _ _ _ hf] at h
    have hne : (o.oid == k) = false := by
      simp only [beq_eq_false_iff_ne, ne_eq, ho]
      omega
    rw [List.find?_cons, hne] at h
    simp at h

theorem monoStep_updateFirst (db db' : DB) (k : Nat) (f : Order → Order)
    (hoid : ∀ x, (f x).oid = x.oid)
    (hmono : ∀ x, x.cancellationRequested = true → (f x).cancellationRequested = true)
    (h1 : db'.orders = (updateFirst (fun o => o.oid == k) f db.orders).1)
    (h2 : db.nextId ≤ db'.nextId) : MonoStep db db' := by
  refine ⟨h2, ?_⟩
  intro k₀ _ o' h
  unfold findOrder at h ⊢
  rw [h1, find?_updateFirst Order.oid f hoid k k₀ db.orders] at h
  by_cases hkk : k₀ = k
  · rw [if_pos hkk] at h
    cases hf : db.orders.find? (fun x => x.oid == k₀) with
    | none => rw [hf] at h; simp at h
    | some a =>
      rw [hf] at h
      have : some (f a) = some o' := by simpa using h
      obtain rfl : f a = o' := Option.some.inj this
      exact ⟨a, rfl, hmono a⟩
  · rw [if_neg hkk] at h
    exact ⟨o', h, id⟩

theorem monoStep_filter (db db' : DB) (q : Order → Bool)
    (hnodup : (db.orders.map Order.oid).Nodup)
    (h1 : db'.orders = db.orders.filter q) (h2 : db.nextId ≤ db'.nextId) :
    MonoStep db db' := by
  refine ⟨h2, ?_⟩
  intro k _ o' h
  unfold findOrder at h ⊢
  rw [h1] at h
  have hmemf : o' ∈ db.orders.filter q := find?_mem _ _ _ h
  have hmem : o' ∈ db.orders := (List.mem_filter.mp hmemf).1
  have hpred := find?_pred _ _ _ h
  have hoid : o'.oid = k := by simpa using hpred
  have hfind := find?_eq_of_nodup_mem Order.oid db.orders o' hnodup hmem
  rw [hoid] at hfind
  exact ⟨o', hfind, id⟩

theorem WF_of_orders_eq (db db' : DB) (ho : db'.orders = db.orders)
    (hn : db.nextId ≤ db'.nextId) (h : WForders db) : WForders db' := by
  constructor
  · intro x hx
    rw [ho] at hx
    exact lt_of_lt_of_le (h.1 x hx) hn
  · rw [ho]
    exact h.2

theorem WF_append (db db' : DB) (o : Order) (ho : o.oid = db.nextId)
    (h1 : db'.orders = db.orders ++ [o]) (h2 : db'.nextId = db.nextId + 1)
    (h : WForders db) : WForders db' := by
  constructor
  · intro x hx
    rw [h1] at hx
    rw [h2]
    rcases List.mem_append.mp hx with hx | hx
    · exact lt_trans (h.1 x hx) (Nat.lt_succ_self _)
    · obtain rfl : x = o := List.mem_singleton.mp hx
      rw [ho]
      exact Nat.lt_succ_self _
  · rw [h1, List.map_append, List.nodup_append]
    refine ⟨h.2, List.nodup_singleton _, ?_⟩
    intro a ha hb
    rcases List.mem_map.mp ha with ⟨x, hx, rfl⟩
    have hlt := h.1 x hx
    simp only [List.map_cons, List.map_nil, List.mem_singleton] at hb
    rw [hb, ho] at hlt
    omega

theorem WF_updateFirst (db db' : DB) (k : Nat) (f : Order → Order)
    (hoid : ∀ x, (f x).oid = x.oid)
    (h1 : db'.orders = (updateFirst (fun o => o.oid == k) f db.orders).1)
    (h2 : db'.nextId = db.nextId) (h : WForders db) : WForders db' := by
  constructor
  · intro x hx
    rw [h1] at hx
    rw [h2]
    rcases mem_updateFirst _ _ _ x hx with hx | ⟨y, hy, rfl⟩
    · exact h.1 x hx
    · rw [hoid]
      exact h.1 y hy
  · rw [h1, map_key_updateFirst Order.oid _ f hoid]
    exact h.2

theorem WF_filter (db db' : DB) (q : Order → Bool)
    (h1 : db'.orders = db.orders.filter q) (h2 : db'.nextId = db.nextId)
    (h : WForders db) : WForders db' := by
  constructor
  · intro x hx
    rw [h1] at hx
    rw [h2]
    exact h.1 x (List.mem_filter.mp hx).1
  · rw [h1]
    have hsub : List.Sublist ((db.orders.filter q).map Order.oid) (db.orders.map Order.oid) :=
      (List.filter_sublist _).map _
    exact h.2.sublist hsub

theorem register_orders (n e p : Option String) (salt : String) (db : DB) :
    ((register n e p salt db).2).orders = db.orders ∧
    db.nextId ≤ ((register n e p salt db).2).nextId := by
  unfold register
  split
  · exact ⟨rfl, le_refl _⟩
  · dsimp only
    split
    · exact ⟨rfl, le_refl _⟩
    · exact ⟨rfl, Nat.le_succ _⟩

theorem login_state (e p : Option String) (db : DB) : (login e p db).2 = db := by
  unfold login
  split
  · rfl
  · split
    · rfl
    · split
      · rfl
      · rfl

theorem update_stock_orders (pid : Int) (st : Option Int) (db : DB) :
    ((update_stock pid st db).2.1).orders = db.orders ∧
    db.nextId ≤ ((update_stock pid st db).2.1).nextId := by
  unfold update_stock
  split
  · exact ⟨rfl, le_refl _⟩
  · dsimp only
    split
    · exact ⟨rfl, le_refl _⟩
    · exact ⟨rfl, le_refl _⟩

theorem save_cart_orders (ue : Option String) (its : Option (List OrderItem)) (db : DB) :
    ((save_cart ue its db).2).orders = db.orders ∧
    db.nextId ≤ ((save_cart ue its db).2).nextId := by
  unfold save_cart
  split
  · exact ⟨rfl, le_refl _⟩
  · split
    · exact ⟨rfl, le_refl _⟩
    · exact ⟨rfl, le_refl _⟩

theorem uac_orders (ce ne np : Option String) (salt : String) (db : DB) :
    ((update_admin_credentials ce ne np salt db).2).orders = db.orders ∧
    db.nextId ≤ ((update_admin_credentials ce ne np salt db).2).nextId := by
  unfold update_admin_credentials
  split
  · exact ⟨rfl, le_refl _⟩
  · split
    · exact ⟨rfl, le_refl _⟩
    · dsimp only
      split
      · exact ⟨rfl, le_refl _⟩
      · exact ⟨rfl, le_refl _⟩

theorem create_order_state (ue : Option String) (its : Option (List OrderItem))
    (ci : Option String) (pc tp : Option Int) (now : String) (db : DB) :
    (create_order ue its ci pc tp now db).2 = db ∨
    ∃ o : Order, o.oid = db.nextId ∧
      (create_order ue its ci pc tp now db).2 =
        { db with orders := db.orders ++ [o], nextId := db.nextId + 1 } := by
  unfold create_order
  split
  · exact Or.inl rfl
  · exact Or.inr ⟨_, rfl, rfl⟩

theorem request_cancellation_state (s : String) (db : DB) :
    (request_cancellation s db).2 = db ∨
    ∃ k, (request_cancellation s db).2 =
      { db with orders := (updateFirst (fun o => o.oid == k)
          (fun o => { o with cancellationRequested := true }) db.orders).1 } := by
  unfold request_cancellation
  cases hp : parseObjectId s with
  | none => exact Or.inl rfl
  | some k =>
    dsimp only
    split
    · exact Or.inr ⟨k, rfl⟩
    · exact Or.inl rfl

theorem admin_update_order_status_state (s : String) (st : Option String) (db : DB) :
    (admin_update_order_status s st db).2 = db ∨
    ∃ k g, (∀ x : Order, (g x).oid = x.oid) ∧
      (∀ x : Order, (g x).cancellationRequested = x.cancellationRequested) ∧
      (admin_update_order_status s st db).2 =
        { db with orders := (updateFirst (fun o => o.oid == k) g db.orders).1 } := by
  unfold admin_update_order_status
  split
  · exact Or.inl rfl
  · cases hp : parseObjectId s with
    | none => exact Or.inl rfl
    | some k =>
      dsimp only
      split
      · exact Or.inr ⟨k, (fun o => { o with status := st.getD "" }),
          fun x => rfl, fun x => rfl, rfl⟩
      · exact Or.inl rfl

theorem admin_delete_user_state (s : String) (db : DB) :
    (admin_delete_user s db).2 = db ∨
    ∃ em us, (admin_delete_user s db).2 =
      { db with users := us,
                orders := db.orders.filter (fun o => !(o.user_email == em)) } := by
  unfold admin_delete_user
  cases hp : parseObjectId s with
  | none => exact Or.inl rfl
  | some uid =>
    dsimp only
    split
    · exact Or.inl rfl
    · split
      · exact Or.inl rfl
      · exact Or.inr ⟨_, _, rfl⟩

theorem step_mono (op : Op) (db : DB) (h : WForders db) : MonoStep db (step op db) := by
  cases op with
  | opRegister n e p s =>
    have hr := register_orders n e p s db
    exact monoStep_of_orders_eq _ _ hr.1 hr.2
  | opLogin e p =>
    simp only [step, login_state]
    exact monoStep_refl db
  | opUpdateStock pid st =>
    have hr := update_stock_orders pid st db
    exact monoStep_of_orders_eq _ _ hr.1 hr.2
  | opCreateOrder ue its ci pc tp now =>
    rcases create_order_state ue its ci pc tp now db with heq | ⟨o, ho, heq⟩
    · simp only [step, heq]
      exact monoStep_refl db
    · simp only [step, heq]
      exact monoStep_append db _ o ho rfl rfl
  | opRequestCancellation s =>
    rcases request_cancellation_state s db with heq | ⟨k, heq⟩
    · simp only [step, heq]
      exact monoStep_refl db
    · simp only [step, heq]
      exact monoStep_updateFirst db _ k
        (fun o => { o with cancellationRequested := true })
        (fun x => rfl) (fun x _ => rfl) rfl (le_refl _)
  | opAdminUpdateStatus s st =>
    rcases admin_update_order_status_state s st db with heq | ⟨k, g, hoid, hcr, heq⟩
    · simp only [step, heq]
      exact monoStep_refl db
    · simp only [step, heq]
      exact monoStep_updateFirst db _ k g hoid
        (fun x hx => by rw [hcr x]; exact hx) rfl (le_refl _)
  | opDeleteUser s =>
    rcases admin_delete_user_state s db with heq | ⟨em, us, heq⟩
    · simp only [step, heq]
      exact monoStep_refl db
    · simp only [step, heq]
      exact monoStep_filter db _ _ h.2 rfl (le_refl _)
  | opSaveCart ue its =>
    have hr := save_cart_orders ue its db
    exact monoStep_of_orders_eq _ _ hr.1 hr.2
  | opUpdateAdminCredentials ce ne np s =>
    have hr := uac_orders ce ne np s db
    exact monoStep_of_orders_eq _ _ hr.1 hr.2

theorem step_WF (op : Op) (db : DB) (h : WForders db) : WForders (step op db) := by
  cases op with
  | opRegister n e p s =>
    have hr := register_orders n e p s db
    exact WF_of_orders_eq _ _ hr.1 hr.2 h
  | opLogin e p =>
    simp only [step, login_state]
    exact h
  | opUpdateStock pid st =>
    have hr := update_stock_orders pid st db
    exact WF_of_orders_eq _ _ hr.1 hr.2 h
  | opCreateOrder ue its ci pc tp now =>
    rcases create_order_state ue its ci pc tp now db with heq | ⟨o, ho, heq⟩
    · simp only [step, heq]
      exact h
    · simp only [step, heq]
      exact WF_append db _ o ho rfl rfl h
  | opRequestCancellation s =>
    rcases request_cancellation_state s db with heq | ⟨k, heq⟩
    · simp only [step, heq]
      exact h
    · simp only [step, heq]
      exact WF_updateFirst db _ k
        (fun o => { o with cancellationRequested := true })
        (fun x => rfl) rfl rfl h
  | opAdminUpdateStatus s st =>
    rcases admin_update_order_status_state s st db with heq | ⟨k, g, hoid, hcr, heq⟩
    · simp only [step, heq]
      exact h
    · simp only [step, heq]
      exact WF_updateFirst db _ k g hoid rfl rfl h
  | opDeleteUser s =>
    rcases admin_delete_user_state s db with heq | ⟨em, us, heq⟩
    · simp only [step, heq]
      exact h
    · simp only [step, heq]
      exact WF_filter db _ _ rfl rfl h
  | opSaveCart ue its =>
    have hr := save_cart_orders ue its db
    exact WF_of_orders_eq _ _ hr.1 hr.2 h
  | opUpdateAdminCredentials ce ne np s =>
    have hr := uac_orders ce ne np s db
    exact WF_of_orders_eq _ _ hr.1 hr.2 h

theorem run_WF (ops : List Op) (db : DB) (h : WForders db) : WForders (run ops db) := by
  induction ops generalizing db with
  | nil => exact h
  | cons op rest ih => exact ih _ (step_WF op db h)

theorem run_mono (ops : List Op) (db : DB) (h : WForders db) : MonoStep db (run ops db) := by
  induction ops generalizing db with
  | nil => exact monoStep_refl db
  | cons op rest ih =>
    exact monoStep_trans _ _ _ (step_mono op db h) (ih _ (step_WF op db h))

/-- Claim C9: under the store invariant (generator-issued, unique order
ids), no sequence of the documented operations ever moves an existing
order's cancellationRequested from true back to false; and
requestCancellation on an existing order answers 200, sets the flag to
true, and is idempotent: running it a second time returns the same
response and leaves the state unchanged. -/
theorem claim_c9 (db : DB) (hwf : WForders db) :
    (∀ (ops : List Op) (k : Nat) (o o' : Order),
      findOrder db k = some o → findOrder (run ops db) k = some o' →
      o.cancellationRequested = true → o'.cancellationRequested = true) ∧
    (∀ (s : String) (k : Nat) (o : Order), parseObjectId s = some k →
      findOrder db k = some o →
      (request_cancellation s db).1 =
        .ok 200 (.okMsg "Cancellation requested successfully") ∧
      findOrder ((request_cancellation s db).2) k =
        some { o with cancellationRequested := true } ∧
      request_cancellation s ((request_cancellation s db).2) =
        ((request_cancellation s db).1, (request_cancellation s db).2)) := by
  constructor
  · intro ops k o o' hbefore hafter hc
    have hmono := run_mono ops db hwf
    have hb' : db.orders.find? (fun x => x.oid == k) = some o := hbefore
    have hk : k < db.nextId := by
      have hmem := find?_mem _ _ _ hb'
      have hpred := find?_pred _ _ _ hb'
      have hoid : o.oid = k := by simpa using hpred
      exact hoid ▸ hwf.1 o hmem
    rcases hmono.2 k hk o' hafter with ⟨o2, hfind2, hm⟩
    rw [hbefore] at hfind2
    obtain rfl : o = o2 := Option.some.inj hfind2
    exact hm hc
  · intro s k o hparse hfind
    have hf' : db.orders.find? (fun x => x.oid == k) = some o := hfind
    have hpred := find?_pred _ _ _ hf'
    have hmem := find?_mem _ _ _ hf'
    have hany : db.orders.any (fun x => x.oid == k) = true :=
      List.any_eq_true.mpr ⟨o, hmem, hpred⟩
    have hm : (updateFirst (fun x => x.oid == k)
        (fun x => { x with cancellationRequested := true }) db.orders).2 = true := by
      rw [updateFirst_snd]
      exact hany
    have hres : request_cancellation s db =
        (.ok 200 (.okMsg "Cancellation requested successfully"),
         { db with orders := (updateFirst (fun x => x.oid == k)
             (fun x => { x with cancellationRequested := true }) db.orders).1 }) := by
      simp [request_cancellation, hparse, hm]
    refine ⟨by rw [hres], ?_, ?_⟩
    · rw [hres]
      unfold findOrder
      rw [show ({ db with orders := (updateFirst (fun x => x.oid == k)
          (fun x => { x with cancellationRequested := true }) db.orders).1 } : DB).orders =
          (updateFirst (fun x => x.oid == k)
            (fun x => { x with cancellationRequested := true }) db.orders).1 from rfl]
      rw [find?_updateFirst Order.oid
        (fun x : Order => { x with cancellationRequested := true })
        (fun x => rfl) k k db.orders]
      rw [if_pos rfl, hf']
      rfl
    · rw [hres]
      have hidem := updateFirst_idem (fun x : Order => x.oid == k)
        (fun x => { x with cancellationRequested := true })
        (fun x => rfl) (fun x => rfl) db.orders
      simp [request_cancellation, hparse, hidem, hm]

/-- Witness for C1 at a concrete database and product. -/
theorem claim_c1_witness :
    (update_stock 42 (some 7) sampleDB).1 = .ok 200 (.okMsg "Stock updated") ∧
    (update_stock 42 (some 7) sampleDB).2.2 = [{ product_id := 42, stock := 7 }] := by
  have h := (claim_c1 sampleDB 42 7).1 (by decide) (by decide)
  exact ⟨h.1, h.2.1⟩

/-- Witness for C2 at a concrete database and item lists. -/
theorem claim_c2_witness :
    (get_cart "alice@example.com" (save_cart (some "alice@example.com")
        (some [{ id := 1, quantity := 2, price := 5, image := "" }])
        ((save_cart (some "alice@example.com") (some []) sampleDB).2)).2).1 =
      .ok 200 (.itemList [{ id := 1, quantity := 2, price := 5, image := "" }]) :=
  (claim_c2 sampleDB "alice@example.com" []
    [{ id := 1, quantity := 2, price := 5, image := "" }] (by decide)).1

/-- Witness for C3 at a concrete database and user id. -/
theorem claim_c3_witness :
    (admin_delete_user "000000000000000000000000" sampleDB).1 =
      .ok 200 (.okMsg "User and their orders removed successfully") := by
  have h := (claim_c3 sampleDB "000000000000000000000000" 0 alice (by decide)).2 (by decide)
  exact h.1

/-- Witness for C4 at a concrete database and fresh email. -/
theorem claim_c4_witness :
    register (some "Bob") (some "bob@example.com") (some "s3cret") "xy" sampleDB =
      (.ok 201 (.okMsg "User registered successfully"),
        { sampleDB with
            users := sampleDB.users ++
              [{ uid := sampleDB.nextId
                 name := "Bob"
                 email := "bob@example.com"
                 password := generate_password_hash "xy" "s3cret" }]
            nextId := sampleDB.nextId + 1 }) := by
  have h := (claim_c4 sampleDB "Bob" "bob@example.com" "s3cret" "xy"
    (by decide) (by decide) (by decide)).2.1 (by decide)
  exact h

/-- Witness for C5 at a concrete database, matching credentials. -/
theorem claim_c5_witness :
    login (some "alice@example.com") (some "pw") sampleDB =
      (.ok 200 (.loginOk "Login successful" "Alice"), sampleDB) := by
  have h := (claim_c5 sampleDB "alice@example.com" "pw" (by decide) (by decide)).2.2
    alice (by decide) (by decide)
  exact h

/-- Witness for C6 at a concrete database and order request. -/
theorem claim_c6_witness :
    ((create_order (some "alice@example.com")
        (some [{ id := 42, quantity := 2, price := 10, image := "" }])
        (some "Chennai") (some 600001) (some 0) "2026-02-03T00:00:00" sampleDB).2).orders =
      sampleDB.orders ++
        [{ oid := sampleDB.nextId
           user_email := "alice@example.com"
           items := [{ id := 42, quantity := 2, price := 10, image := "img.png" }]
           city := "Chennai"
           pincode := 600001
           total_price := 0
           status := "Pending"
           order_date := "2026-02-03T00:00:00"
           cancellationRequested := false }] := by
  have h := claim_c6 sampleDB (some "alice@example.com") (some "Chennai")
    (some [{ id := 42, quantity := 2, price := 10, image := "" }])
    (some 600001) (some 0) "2026-02-03T00:00:00"
    (by decide) (by decide) (by decide) (by decide) (by decide)
  rw [h.2.1]
  decide

/-- Witness for C7 at a concrete request with total price 0. -/
theorem claim_c7_witness :
    (create_order (some "alice@example.com")
        (some [{ id := 1, quantity := 1, price := 1, image := "" }]) (some "Chennai")
        (some 600001) (some 0) "2026-01-01T00:00:00" emptyDB).1 =
      .ok 201 (.okMsg "Order placed successfully") :=
  (claim_c7_amended emptyDB (some "alice@example.com") (some "Chennai")
    (some [{ id := 1, quantity := 1, price := 1, image := "" }]) (some 600001) (some 0)
    "2026-01-01T00:00:00").2 (by decide)

/-- Witness for C8 at a concrete database and well-formed order id. -/
theorem claim_c8_witness :
    resHandled (request_cancellation "000000000000000000000001" sampleDB).1 = true := by
  have h := claim_c8_amended sampleDB none none none none none none none none none
    "" "" "" "" "000000000000000000000001" "" "" "" none none none 0 none none none
  exact h.2.2.2.2.2.2.1 (by decide)

/-- Witness for C9 at a concrete database and order. -/
theorem claim_c9_witness :
    (request_cancellation "000000000000000000000001" sampleDB).1 =
      .ok 200 (.okMsg "Cancellation requested successfully") := by
  have h := (claim_c9 sampleDB ⟨by decide, by decide⟩).2 "000000000000000000000001" 1 order1
    (by decide) (by decide)
  exact h.1

end ECommerce
